import Mathlib

/-!
Verification of the linkerd2-proxy stream-metrics recorder
(linkerd/http/prom/src/record_response.rs) and of the client-policy rule
matcher exercised by linkerd/app/integration/src/tests/client_policy.rs.

The recorder is embedded as a pure state machine: one `Exchange` value holds
the state that the Rust code spreads across the oneshot channel, the
`RequestBody` wrapper, and the `ResponseState` carried by the response
future/body.  Each poll or drop of a wrapped body is an `Event`; `step`
mirrors the corresponding Rust method body, and `run` folds a whole
request lifetime.  Histogram observations are accumulated in a list.
-/

namespace LinkerdProxy

/-- Time instants, in abstract ticks (tokio `time::Instant`). -/
abbrev Instant := Nat

/-- HTTP trailers (`http::HeaderMap`), as a name/value list. -/
abbrev HeaderMap := List (String × String)

/-- Errors (`linkerd_error::Error`): the distinguished `RequestCancelled`
error produced by dropping a wrapped response body, or any other boxed
error, identified abstractly by a code. -/
inductive Err where
  | requestCancelled
  | other (code : Nat)
deriving DecidableEq, Repr

/-- The outcome fed to `StreamLabel::end_response`:
`Result<Option<&http::HeaderMap>, &Error>`. -/
abbrev EndRes := Except Err (Option HeaderMap)

/-- The `StreamLabel` trait: `L` is the labeler state, `O` the encoded label
set.  `init_response` observes the response head (abstracted to its status
code); `end_response` consumes the labeler and the trailers-or-error outcome
and produces the label set used for histogram bucketing. -/
structure Labeler (L O : Type) where
  init_response : L → Nat → L
  end_response : L → EndRes → O

/-- One histogram observation: the label set it is bucketed by and the
elapsed time recorded (`metric.observe(elapsed)`). -/
structure Obs (O : Type) where
  label : O
  elapsed : Nat
deriving DecidableEq, Repr

/-- The whole per-request recorder state:
* `flushed`: whether the `RequestBody` wrapper still holds the oneshot
  `Sender` (its `flushed: Option<Sender<Instant>>` is `Some`);
* `slot`: the oneshot channel's value cell, `some t` once an instant has
  been sent (what `Receiver::try_recv` yields);
* `state`: the `Option<ResponseState>` carried by the response future and
  then the response body; `some l` holds the current labeler;
* `obs`: all histogram observations made so far for this request. -/
structure Exchange (L O : Type) where
  flushed : Bool
  slot : Option Instant
  state : Option L
  obs : List (Obs O)
deriving DecidableEq, Repr

/-- Elapsed time computed by `end_stream`: `now - start` when
`start.try_recv()` yields a value (saturating subtraction), and
`Duration::ZERO` when no value was ever sent. -/
def elapsedSince (slot : Option Instant) (now : Instant) : Nat :=
  match slot with
  | some t => now - t
  | none => 0

/-- The `end_stream` function: takes the response state; if it was already
taken this is a no-op; otherwise it derives the label set from
`end_response`, reads the start signal (zero elapsed if absent), and makes
exactly one histogram observation. -/
def end_stream (lb : Labeler L O) (ex : Exchange L O) (now : Instant)
    (res : EndRes) : Exchange L O :=
  match ex.state with
  | none => ex
  | some labeler =>
      let lbl := lb.end_response labeler res
      { ex with
        state := none
        obs := ex.obs ++ [⟨lbl, elapsedSince ex.slot now⟩] }

/-- The take-and-send step shared by the `RequestBody` methods:
`if let Some(tx) = this.flushed.take() { let _ = tx.send(now) }`.
The send result is discarded, so the send is total here: it fills the slot
whether or not the receiver still exists. -/
def RequestBody.touchFlushed (ex : Exchange L O) (now : Instant) :
    Exchange L O :=
  if ex.flushed then { ex with flushed := false, slot := some now } else ex

/-- A completed `RequestBody::poll_data`: after the inner poll is ready, the
sender fires iff the inner body is now at end-of-stream. -/
def RequestBody.poll_data (ex : Exchange L O) (innerEos : Bool)
    (now : Instant) : Exchange L O :=
  if innerEos then RequestBody.touchFlushed ex now else ex

/-- A completed `RequestBody::poll_trailers`: the sender fires
unconditionally once trailers resolve. -/
def RequestBody.poll_trailers (ex : Exchange L O) (now : Instant) :
    Exchange L O :=
  RequestBody.touchFlushed ex now

/-- The `PinnedDrop` impl for `RequestBody`: dropping the wrapped request
body fires the sender if it is still held. -/
def RequestBody.drop (ex : Exchange L O) (now : Instant) : Exchange L O :=
  RequestBody.touchFlushed ex now

/-- The inner service's resolved response, as seen by
`ResponseFuture::poll`: either a response head (status) together with
whether its body `is_end_stream()` already, or an error. -/
inductive InnerRsp where
  | ok (status : Nat) (bodyEos : Bool)
  | err (e : Err)
deriving DecidableEq, Repr

/-- The `ResponseFuture::poll` body, once the inner future is ready.  On
`Ok`, the labeler observes the response head (`init_response`), and if the
body is already at end-of-stream the metric is finalized immediately with
`Ok(None)`; the (possibly already-finalized) state then rides on the
wrapped response body.  On `Err`, the metric is finalized with the error
and the error itself is returned unchanged. -/
def ResponseFuture.poll (lb : Labeler L O) (ex : Exchange L O)
    (res : InnerRsp) (now : Instant) : Exchange L O × Except Err Nat :=
  match res with
  | .ok status bodyEos =>
      let ex := { ex with state := ex.state.map (fun l => lb.init_response l status) }
      let ex := if bodyEos then end_stream lb ex now (.ok none) else ex
      (ex, .ok status)
  | .err e =>
      (end_stream lb ex now (.error e), .error e)

/-- A completed `ResponseBody::poll_data`: on an error frame the metric is
finalized with that error; otherwise, if the inner body reached
end-of-stream, it is finalized with `Ok(None)`.  The polled result itself
is returned unchanged. -/
def ResponseBody.poll_data (lb : Labeler L O) (ex : Exchange L O)
    (res : Option (Except Err Unit)) (innerEos : Bool) (now : Instant) :
    Exchange L O × Option (Except Err Unit) :=
  match res with
  | some (.error e) => (end_stream lb ex now (.error e), res)
  | _ =>
      if innerEos then (end_stream lb ex now (.ok none), res) else (ex, res)

/-- A completed `ResponseBody::poll_trailers`: the metric is finalized with
the trailers-or-error result, which is returned unchanged. -/
def ResponseBody.poll_trailers (lb : Labeler L O) (ex : Exchange L O)
    (res : EndRes) (now : Instant) : Exchange L O × EndRes :=
  (end_stream lb ex now res, res)

/-- The `PinnedDrop` impl for `ResponseBody`: if the state has not yet been
consumed, finalize with the distinguished `RequestCancelled` error. -/
def ResponseBody.drop (lb : Labeler L O) (ex : Exchange L O)
    (now : Instant) : Exchange L O :=
  if ex.state.isSome then end_stream lb ex now (.error .requestCancelled)
  else ex

deriving instance DecidableEq for Except

/-- One observable event in a recorded exchange's lifetime: a completed
poll or a drop of the wrapped request body, the inner response future
resolving, or a completed poll or a drop of the wrapped response body.
Pending polls return early without touching any recorder state and so do
not appear as events. -/
inductive Event where
  | reqPollData (innerEos : Bool) (now : Instant)
  | reqPollTrailers (now : Instant)
  | reqDrop (now : Instant)
  | rspFuture (res : InnerRsp) (now : Instant)
  | rspPollData (res : Option (Except Err Unit)) (innerEos : Bool) (now : Instant)
  | rspPollTrailers (res : EndRes) (now : Instant)
  | rspDrop (now : Instant)
deriving DecidableEq, Repr

/-- Effect of a single event on the recorder state. -/
def step (lb : Labeler L O) (ex : Exchange L O) : Event → Exchange L O
  | .reqPollData innerEos now => RequestBody.poll_data ex innerEos now
  | .reqPollTrailers now => RequestBody.poll_trailers ex now
  | .reqDrop now => RequestBody.drop ex now
  | .rspFuture res now => (ResponseFuture.poll lb ex res now).1
  | .rspPollData res innerEos now => (ResponseBody.poll_data lb ex res innerEos now).1
  | .rspPollTrailers res now => (ResponseBody.poll_trailers lb ex res now).1
  | .rspDrop now => ResponseBody.drop lb ex now

/-- Effect of a whole sequence of events. -/
def run (lb : Labeler L O) (ex : Exchange L O) (es : List Event) :
    Exchange L O :=
  es.foldl (step lb) ex

/-- The request-and-wrapping outcome of a recorder service `call`: the
recorder state it sets up, the request forwarded to the inner service, and
whether that request's body was wrapped in a `RequestBody`. -/
structure CallOut (R L O : Type) where
  ex : Exchange L O
  req : R
  wrapped : Bool

/-- The `RecordRequestDuration::call` body (request-duration mode): if the
labeler declines, no recorder state is set up; otherwise a oneshot channel
is created and the request-arrival instant is sent on it immediately
(`tx.send(time::Instant::now()).unwrap()`).  The request body is never
wrapped in this mode. -/
def RecordRequestDuration.call (mk : R → Option L) (req : R)
    (now : Instant) : CallOut R L O :=
  match mk req with
  | some l => ⟨⟨false, some now, some l, []⟩, req, false⟩
  | none => ⟨⟨false, none, none, []⟩, req, false⟩

/-- The `RecordResponseDuration::call` body (response-duration mode): if the
labeler declines, the request passes through untouched with no recorder
state; otherwise a oneshot channel is created, left unfired, and the
request body is wrapped in a `RequestBody` holding the sender. -/
def RecordResponseDuration.call (mk : R → Option L) (req : R) :
    CallOut R L O :=
  match mk req with
  | some l => ⟨⟨true, none, some l, []⟩, req, true⟩
  | none => ⟨⟨false, none, none, []⟩, req, false⟩

/-- A histogram, abstracted to the bucket upper bounds it was created
with. -/
structure Histogram where
  buckets : List ℚ
deriving DecidableEq, Repr

/-- The `MkDurationHistogram` metric constructor: a unit struct, carrying
no per-instance configuration. -/
structure MkDurationHistogram where
  unit : Unit
deriving DecidableEq, Repr

/-- The shared `MkDurationHistogram::BUCKETS` constant. -/
def MkDurationHistogram.BUCKETS : List ℚ :=
  [0.025, 0.1, 0.25, 1.0, 2.5, 10.0, 25.0]

/-- The `MetricConstructor` impl for `MkDurationHistogram`:
`Histogram::new(Self::BUCKETS.iter().copied())`. -/
def MkDurationHistogram.new_metric (_ : MkDurationHistogram) : Histogram :=
  ⟨MkDurationHistogram.BUCKETS⟩

/-- A metric family of duration histograms, abstracted to the constructor
used to create every per-label-set member. -/
structure DurationFamily where
  ctor : MkDurationHistogram
deriving DecidableEq, Repr

/-- Family creation: `DurationFamily::new_with_constructor(...)`. -/
def DurationFamily.new_with_constructor (c : MkDurationHistogram) :
    DurationFamily :=
  ⟨c⟩

/-- Member creation: `family.get_or_create(&labels)` constructs (or
returns) the histogram for a label set using the family's constructor. -/
def DurationFamily.get_or_create (f : DurationFamily) : Histogram :=
  f.ctor.new_metric

/-- The `RequestDuration` metric wrapper. -/
structure RequestDuration where
  family : DurationFamily
deriving DecidableEq, Repr

/-- The body of `RequestDuration::register`: builds the family with a
`MkDurationHistogram(())` constructor (registry bookkeeping elided). -/
def RequestDuration.register : RequestDuration :=
  ⟨DurationFamily.new_with_constructor ⟨()⟩⟩

/-- The `ResponseDuration` metric wrapper. -/
structure ResponseDuration where
  family : DurationFamily
deriving DecidableEq, Repr

/-- The body of `ResponseDuration::register`: builds the family with a
`MkDurationHistogram(())` constructor (registry bookkeeping elided). -/
def ResponseDuration.register : ResponseDuration :=
  ⟨DurationFamily.new_with_constructor ⟨()⟩⟩

/-!
Client-policy rule matching.  The matcher itself lives in the
linkerd-http-route / client-policy crates, which are not part of the
excerpted sources; only the integration test
linkerd/app/integration/src/tests/client_policy.rs is.  The matcher is
therefore modelled from the spec, and checked against the concrete
routing table and the request/backend expectations that the
header_based_routing integration test asserts.
-/

/-- Modelled from the spec: regular expressions for header-value `Regex`
predicates, with full-pattern (not substring) matching, implemented by
Brzozowski derivatives. -/
inductive Regex where
  | emp
  | eps
  | chr (c : Char)
  | alt (r s : Regex)
  | cat (r s : Regex)
  | star (r : Regex)
deriving DecidableEq, Repr

/-- Whether a regular expression accepts the empty string. -/
def Regex.nullable : Regex → Bool
  | .emp => false
  | .eps => true
  | .chr _ => false
  | .alt r s => r.nullable || s.nullable
  | .cat r s => r.nullable && s.nullable
  | .star _ => true

/-- Brzozowski derivative of a regular expression by one character. -/
def Regex.deriv : Regex → Char → Regex
  | .emp, _ => .emp
  | .eps, _ => .emp
  | .chr c, a => if a = c then .eps else .emp
  | .alt r s, a => .alt (r.deriv a) (s.deriv a)
  | .cat r s, a =>
      if r.nullable then .alt (.cat (r.deriv a) s) (s.deriv a)
      else .cat (r.deriv a) s
  | .star r, a => .cat (r.deriv a) (.star r)

/-- Full-pattern match of a regular expression against a string. -/
def Regex.rmatch (r : Regex) (s : String) : Bool :=
  (s.data.foldl Regex.deriv r).nullable

/-- A string literal as a regular expression. -/
def Regex.lit (s : String) : Regex :=
  s.data.foldr (fun c r => .cat (.chr c) r) .eps

/-- Modelled from the spec: a header-value predicate is `Exact` (byte-exact
equality), `Regex` (full-pattern match), or `Present` (the header exists
with any value).  Header values are modelled as text. -/
inductive HeaderValueMatch where
  | exact (value : String)
  | regex (re : Regex)
  | present
deriving DecidableEq, Repr

/-- A single header predicate: a header name and a value predicate. -/
structure HeaderPred where
  name : String
  value : HeaderValueMatch
deriving DecidableEq, Repr

/-- Modelled from the spec: one match-set, a conjunction (AND) of zero or
more predicates over headers, request path, and request method; an empty
predicate set matches unconditionally. -/
structure MatchSet where
  headers : List HeaderPred
  path : Option String
  method : Option String
deriving DecidableEq, Repr

/-- A request's observable attributes: headers, path, method. -/
structure Request where
  headers : List (String × String)
  path : String
  method : String
deriving DecidableEq, Repr

/-- ASCII-lowercased code points of a string, for case-insensitive header
names. -/
def lowerCodes (s : String) : List Nat :=
  s.data.map fun c =>
    if 65 ≤ c.toNat ∧ c.toNat ≤ 90 then c.toNat + 32 else c.toNat

/-- Case-insensitive header-name equality. -/
def nameEq (a b : String) : Bool :=
  lowerCodes a == lowerCodes b

/-- First header with the given (case-insensitive) name. -/
def findHeader (req : Request) (name : String) : Option String :=
  (req.headers.find? fun h => nameEq h.1 name).map Prod.snd

/-- Whether one header predicate holds of a request; a missing header makes
any predicate referencing it false. -/
def HeaderPred.holds (p : HeaderPred) (req : Request) : Bool :=
  match findHeader req p.name with
  | none => false
  | some v =>
      match p.value with
      | .exact s => v == s
      | .regex re => re.rmatch v
      | .present => true

/-- Whether a whole match-set (predicate conjunction) holds of a request. -/
def MatchSet.holds (ms : MatchSet) (req : Request) : Bool :=
  ms.headers.all (fun p => p.holds req) &&
    (match ms.path with
     | none => true
     | some p => req.path == p) &&
    (match ms.method with
     | none => true
     | some m => req.method == m)

/-- One routing rule: its match-sets (OR semantics; empty means the rule
matches unconditionally) and the backend its distribution routes to,
identified by index. -/
structure Rule where
  matchSets : List MatchSet
  backend : Nat
deriving DecidableEq, Repr

instance : Inhabited Rule := ⟨⟨[], 0⟩⟩

/-- Whether a rule matches a request: its match list is empty, or some
match-set's full conjunction holds. -/
def Rule.matches_req (r : Rule) (req : Request) : Bool :=
  r.matchSets.isEmpty || r.matchSets.any fun ms => ms.holds req

/-- Modelled from the spec: the claimed first-match-wins matcher over a
flattened, order-preserving rule sequence — the index of the first rule
whose matches list is empty or for which some match-set holds. -/
def firstMatch : List Rule → Request → Option Nat
  | [], _ => none
  | r :: rs, req =>
      if r.matches_req req then some 0
      else (firstMatch rs req).map (· + 1)

/-- Match rank of a rule for a request: 2 when some actual match-set
holds, 1 when the rule matches only because its match list is empty, and 0
when it does not match at all. -/
def Rule.rank (r : Rule) (req : Request) : Nat :=
  if r.matchSets.any (fun ms => ms.holds req) then 2
  else if r.matchSets.isEmpty then 1
  else 0

/-- Index of the first rule of the given match rank. -/
def findRank (t : Nat) : List Rule → Request → Option Nat
  | [], _ => none
  | r :: rs, req =>
      if r.rank req = t then some 0
      else (findRank t rs req).map (· + 1)

/-- Modelled from the spec, amended per the header_based_routing
integration test: the matcher selects, among the matching rules, one of
maximal match rank (a rule matched via an actual match-set outranks a rule
that matches only by an empty match list), and the earliest such rule in
order; it fails when no rule matches. -/
def bestMatch (rules : List Rule) (req : Request) : Option Nat :=
  match findRank 2 rules req with
  | some i => some i
  | none => findRank 1 rules req

/-- The flattened rule sequence of the route built by the
header_based_routing integration test: a catch-all rule to the world
backend, then a rule requiring header x-hello-city to match the regex
sf|san francisco routed to the sf backend, then a rule requiring
x-hello-city to equal austin routed to the austin backend.  Backends are
numbered world = 0, sf = 1, austin = 2. -/
def helloRules : List Rule :=
  [ ⟨[], 0⟩,
    ⟨[⟨[⟨"x-hello-city", .regex (.alt (Regex.lit "sf") (Regex.lit "san francisco"))⟩],
        none, none⟩], 1⟩,
    ⟨[⟨[⟨"x-hello-city", .exact "austin"⟩], none, none⟩], 2⟩ ]

/-- A GET / request carrying an optional x-hello-city header value. -/
def reqWith (v : Option String) : Request :=
  { headers :=
      match v with
      | some s => [("x-hello-city", s)]
      | none => []
    path := "/"
    method := "GET" }

/-- The five request/backend expectations asserted by the
header_based_routing integration test (client_policy.rs lines 340-352):
no header and the value paris reach the world backend, sf and
san francisco reach the sf backend, austin reaches the austin backend. -/
def header_based_routing_expected : List (Option String × Nat) :=
  [(none, 0), (some "sf", 1), (some "paris", 0),
   (some "austin", 2), (some "san francisco", 1)]

/-- A concrete labeler used to instantiate theorems: its label set is the
raw trailers-or-error outcome itself. -/
def cLabeler : Labeler Unit EndRes :=
  ⟨fun l _ => l, fun _ r => r⟩

/-! Helper lemmas about the recorder state machine. -/

theorem run_nil (lb : Labeler L O) (ex : Exchange L O) : run lb ex [] = ex :=
  rfl

theorem run_cons (lb : Labeler L O) (ex : Exchange L O) (e : Event)
    (es : List Event) : run lb ex (e :: es) = run lb (step lb ex e) es :=
  rfl

theorem end_stream_of_state_none (lb : Labeler L O) (ex : Exchange L O)
    (now : Instant) (res : EndRes) (h : ex.state = none) :
    end_stream lb ex now res = ex := by
  unfold end_stream
  rw [h]

theorem end_stream_of_state_some (lb : Labeler L O) (ex : Exchange L O)
    (now : Instant) (res : EndRes) (l : L) (h : ex.state = some l) :
    end_stream lb ex now res =
      { ex with
        state := none
        obs := ex.obs ++ [⟨lb.end_response l res, elapsedSince ex.slot now⟩] } := by
  unfold end_stream
  rw [h]

theorem end_stream_flushed_slot (lb : Labeler L O) (ex : Exchange L O)
    (now : Instant) (res : EndRes) :
    (end_stream lb ex now res).flushed = ex.flushed ∧
      (end_stream lb ex now res).slot = ex.slot := by
  unfold end_stream
  cases ex.state <;> simp

theorem touchFlushed_state_obs (ex : Exchange L O) (now : Instant) :
    (RequestBody.touchFlushed ex now).state = ex.state ∧
      (RequestBody.touchFlushed ex now).obs = ex.obs := by
  unfold RequestBody.touchFlushed
  split <;> simp

/-- Every event either leaves the response state's presence and the
observation list untouched, or consumes a present state and makes exactly
one observation. -/
theorem step_shape (lb : Labeler L O) (ex : Exchange L O) (e : Event) :
    ((step lb ex e).state.isSome = ex.state.isSome ∧
      (step lb ex e).obs = ex.obs) ∨
    (ex.state.isSome = true ∧ (step lb ex e).state = none ∧
      ∃ o, (step lb ex e).obs = ex.obs ++ [o]) := by
  cases hs : ex.state with
  | none =>
      left
      cases e with
      | reqPollData innerEos now =>
          simp only [step, RequestBody.poll_data, RequestBody.touchFlushed]
          split
          · split <;> simp [hs]
          · simp [hs]
      | reqPollTrailers now =>
          simp only [step, RequestBody.poll_trailers, RequestBody.touchFlushed]
          split <;> simp [hs]
      | reqDrop now =>
          simp only [step, RequestBody.drop, RequestBody.touchFlushed]
          split <;> simp [hs]
      | rspFuture res now =>
          cases res with
          | ok status bodyEos =>
              cases bodyEos with
              | false => simp [step, ResponseFuture.poll, hs]
              | true => simp [step, ResponseFuture.poll, hs, end_stream]
          | err e => simp [step, ResponseFuture.poll, end_stream, hs]
      | rspPollData res innerEos now =>
          rcases res with _ | (e | u) <;> cases innerEos <;>
            simp [step, ResponseBody.poll_data, end_stream, hs]
      | rspPollTrailers res now =>
          simp [step, ResponseBody.poll_trailers, end_stream, hs]
      | rspDrop now =>
          simp [step, ResponseBody.drop, end_stream, hs]
  | some l =>
      cases e with
      | reqPollData innerEos now =>
          left
          simp only [step, RequestBody.poll_data, RequestBody.touchFlushed]
          split
          · split <;> simp [hs]
          · simp [hs]
      | reqPollTrailers now =>
          left
          simp only [step, RequestBody.poll_trailers, RequestBody.touchFlushed]
          split <;> simp [hs]
      | reqDrop now =>
          left
          simp only [step, RequestBody.drop, RequestBody.touchFlushed]
          split <;> simp [hs]
      | rspFuture res now =>
          cases res with
          | ok status bodyEos =>
              cases bodyEos with
              | false => left; simp [step, ResponseFuture.poll, hs]
              | true =>
                  right
                  refine ⟨by simp [hs], ?_, ?_⟩
                  · simp [step, ResponseFuture.poll, hs, end_stream]
                  · exact ⟨⟨lb.end_response (lb.init_response l status) (.ok none),
                      elapsedSince ex.slot now⟩,
                      by simp [step, ResponseFuture.poll, hs, end_stream]⟩
          | err e =>
              right
              refine ⟨by simp [hs], ?_, ?_⟩
              · simp [step, ResponseFuture.poll, hs, end_stream]
              · exact ⟨⟨lb.end_response l (.error e), elapsedSince ex.slot now⟩,
                  by simp [step, ResponseFuture.poll, hs, end_stream]⟩
      | rspPollData res innerEos now =>
          rcases res with _ | (e | u)
          · cases innerEos with
            | false => left; simp [step, ResponseBody.poll_data, hs]
            | true =>
                right
                refine ⟨by simp [hs], ?_, ?_⟩
                · simp [step, ResponseBody.poll_data, hs, end_stream]
                · exact ⟨⟨lb.end_response l (.ok none), elapsedSince ex.slot now⟩,
                    by simp [step, ResponseBody.poll_data, hs, end_stream]⟩
          · right
            refine ⟨by simp [hs], ?_, ?_⟩
            · simp [step, ResponseBody.poll_data, hs, end_stream]
            · exact ⟨⟨lb.end_response l (.error e), elapsedSince ex.slot now⟩,
                by simp [step, ResponseBody.poll_data, hs, end_stream]⟩
          · cases innerEos with
            | false => left; simp [step, ResponseBody.poll_data, hs]
            | true =>
                right
                refine ⟨by simp [hs], ?_, ?_⟩
                · simp [step, ResponseBody.poll_data, hs, end_stream]
                · exact ⟨⟨lb.end_response l (.ok none), elapsedSince ex.slot now⟩,
                    by simp [step, ResponseBody.poll_data, hs, end_stream]⟩
      | rspPollTrailers res now =>
          right
          refine ⟨by simp [hs], ?_, ?_⟩
          · simp [step, ResponseBody.poll_trailers, hs, end_stream]
          · exact ⟨⟨lb.end_response l res, elapsedSince ex.slot now⟩,
              by simp [step, ResponseBody.poll_trailers, hs, end_stream]⟩
      | rspDrop now =>
          right
          refine ⟨by simp [hs], ?_, ?_⟩
          · simp [step, ResponseBody.drop, hs, end_stream]
          · exact ⟨⟨lb.end_response l (.error .requestCancelled),
              elapsedSince ex.slot now⟩,
              by simp [step, ResponseBody.drop, hs, end_stream]⟩

/-- The at-most-once finalization invariant: whenever the response state is
still present no observation has been made, and at most one observation is
ever made. -/
theorem run_invariant (lb : Labeler L O) (ex : Exchange L O)
    (es : List Event) (h1 : ex.state.isSome = true → ex.obs = [])
    (h2 : ex.obs.length ≤ 1) :
    ((run lb ex es).state.isSome = true → (run lb ex es).obs = []) ∧
      (run lb ex es).obs.length ≤ 1 := by
  induction es generalizing ex with
  | nil => exact ⟨h1, h2⟩
  | cons e es ih =>
      rw [run_cons]
      rcases step_shape lb ex e with ⟨hss, hso⟩ | ⟨hsome, hsn, o, hso⟩
      · exact ih (step lb ex e)
          (fun h => by rw [hso]; exact h1 (by rw [← hss]; exact h))
          (by rw [hso]; exact h2)
      · refine ih (step lb ex e) ?_ ?_
        · intro h
          rw [hsn] at h
          simp at h
        · rw [hso, h1 hsome]
          simp

/-- A missing response state is absorbing: no event reinstates it and no
further observation is ever made. -/
theorem step_state_none (lb : Labeler L O) (ex : Exchange L O) (e : Event)
    (h : ex.state = none) :
    (step lb ex e).state = none ∧ (step lb ex e).obs = ex.obs := by
  rcases step_shape lb ex e with ⟨hss, hso⟩ | ⟨hsome, _, _⟩
  · refine ⟨?_, hso⟩
    rw [h] at hss
    simp only [Option.isSome_none] at hss
    exact Option.not_isSome_iff_eq_none.mp (by rw [hss]; simp)
  · rw [h] at hsome
    simp at hsome

theorem run_state_none (lb : Labeler L O) (ex : Exchange L O)
    (es : List Event) (h : ex.state = none) :
    (run lb ex es).state = none ∧ (run lb ex es).obs = ex.obs := by
  induction es generalizing ex with
  | nil => exact ⟨h, rfl⟩
  | cons e es ih =>
      rw [run_cons]
      obtain ⟨h1, h2⟩ := step_state_none lb ex e h
      obtain ⟨h3, h4⟩ := ih (step lb ex e) h1
      exact ⟨h3, by rw [h4, h2]⟩

/-- Once the request-body sender has been consumed, no event can fire it
again: the channel slot never changes. -/
theorem step_flushed_false (lb : Labeler L O) (ex : Exchange L O)
    (e : Event) (h : ex.flushed = false) :
    (step lb ex e).flushed = false ∧ (step lb ex e).slot = ex.slot := by
  cases e with
  | reqPollData innerEos now =>
      simp only [step, RequestBody.poll_data, RequestBody.touchFlushed, h]
      split <;> simp [h]
  | reqPollTrailers now =>
      simp only [step, RequestBody.poll_trailers, RequestBody.touchFlushed, h]
      simp [h]
  | reqDrop now =>
      simp only [step, RequestBody.drop, RequestBody.touchFlushed, h]
      simp [h]
  | rspFuture res now =>
      cases res with
      | ok status bodyEos =>
          cases bodyEos with
          | false => simp [step, ResponseFuture.poll, h]
          | true =>
              have hE := end_stream_flushed_slot lb
                { ex with state := ex.state.map fun l => lb.init_response l status }
                now (.ok none)
              simp only [step, ResponseFuture.poll, if_true]
              exact ⟨by rw [hE.1]; exact h, hE.2⟩
      | err e =>
          have hE := end_stream_flushed_slot lb ex now (.error e)
          simp only [step, ResponseFuture.poll]
          exact ⟨by rw [hE.1]; exact h, hE.2⟩
  | rspPollData res innerEos now =>
      rcases res with _ | (e | u)
      · cases innerEos with
        | false => simp [step, ResponseBody.poll_data, h]
        | true =>
            have hE := end_stream_flushed_slot lb ex now (.ok none)
            simp only [step, ResponseBody.poll_data, if_true]
            exact ⟨by rw [hE.1]; exact h, hE.2⟩
      · have hE := end_stream_flushed_slot lb ex now (.error e)
        simp only [step, ResponseBody.poll_data]
        exact ⟨by rw [hE.1]; exact h, hE.2⟩
      · cases innerEos with
        | false => simp [step, ResponseBody.poll_data, h]
        | true =>
            have hE := end_stream_flushed_slot lb ex now (.ok none)
            simp only [step, ResponseBody.poll_data, if_true]
            exact ⟨by rw [hE.1]; exact h, hE.2⟩
  | rspPollTrailers res now =>
      have hE := end_stream_flushed_slot lb ex now res
      simp only [step, ResponseBody.poll_trailers]
      exact ⟨by rw [hE.1]; exact h, hE.2⟩
  | rspDrop now =>
      simp only [step, ResponseBody.drop]
      split
      · have hE := end_stream_flushed_slot lb ex now (.error .requestCancelled)
        exact ⟨by rw [hE.1]; exact h, hE.2⟩
      · exact ⟨h, rfl⟩

theorem run_flushed_false (lb : Labeler L O) (ex : Exchange L O)
    (es : List Event) (h : ex.flushed = false) :
    (run lb ex es).flushed = false ∧ (run lb ex es).slot = ex.slot := by
  induction es generalizing ex with
  | nil => exact ⟨h, rfl⟩
  | cons e es ih =>
      rw [run_cons]
      obtain ⟨h1, h2⟩ := step_flushed_false lb ex e h
      obtain ⟨h3, h4⟩ := ih (step lb ex e) h1
      exact ⟨h3, by rw [h4, h2]⟩

/-! Helper lemmas about the rank-based matcher. -/

theorem rank_le_two (r : Rule) (req : Request) : r.rank req ≤ 2 := by
  unfold Rule.rank
  split
  · exact Nat.le_refl 2
  · split
    · exact Nat.le_succ 1
    · exact Nat.zero_le 2

theorem matches_req_iff_rank_pos (r : Rule) (req : Request) :
    r.matches_req req = true ↔ 1 ≤ r.rank req := by
  unfold Rule.matches_req Rule.rank
  cases hA : r.matchSets.any fun ms => ms.holds req <;>
    cases hE : r.matchSets.isEmpty <;> simp [hA, hE]

theorem findRank_some {t : Nat} {rules : List Rule} {req : Request}
    {i : Nat} (h : findRank t rules req = some i) :
    i < rules.length ∧ (rules.getD i default).rank req = t ∧
      ∀ j, j < i → (rules.getD j default).rank req ≠ t := by
  induction rules generalizing i with
  | nil => simp [findRank] at h
  | cons r rs ih =>
      rw [findRank] at h
      by_cases hr : r.rank req = t
      · rw [if_pos hr] at h
        obtain rfl : (0 : Nat) = i := Option.some.inj h
        refine ⟨Nat.succ_pos _, by simpa using hr, ?_⟩
        intro j hj
        exact absurd hj (Nat.not_lt_zero j)
      · rw [if_neg hr] at h
        rw [Option.map_eq_some'] at h
        obtain ⟨k, hk, rfl⟩ := h
        obtain ⟨hlen, hget, hprev⟩ := ih hk
        refine ⟨Nat.succ_lt_succ hlen, by simpa using hget, ?_⟩
        intro j hj
        cases j with
        | zero => simpa using hr
        | succ j =>
            simpa using hprev j (Nat.lt_of_succ_lt_succ hj)

theorem findRank_none {t : Nat} {rules : List Rule} {req : Request}
    (h : findRank t rules req = none) :
    ∀ j, j < rules.length → (rules.getD j default).rank req ≠ t := by
  induction rules with
  | nil => intro j hj; simp at hj
  | cons r rs ih =>
      rw [findRank] at h
      by_cases hr : r.rank req = t
      · rw [if_pos hr] at h
        simp at h
      · rw [if_neg hr] at h
        rw [Option.map_eq_none'] at h
        intro j hj
        cases j with
        | zero => simpa using hr
        | succ j =>
            simpa using ih h j (by simpa using Nat.lt_of_succ_lt_succ hj)

/-! The claims. -/

/-- C1 (counterexample): on the header_based_routing test's own rule
sequence — whose catch-all rule precedes the sf rule — the claimed
first-match-wins algorithm selects rule 0 and hence the world backend (0)
for a request carrying x-hello-city: sf, whereas the repository's
integration test asserts that this request reaches the sf backend (1). -/
theorem first_match_wins_refuted_by_header_routing_test :
    firstMatch helloRules (reqWith (some "sf")) = some 0 ∧
    (helloRules.getD 0 default).backend = 0 ∧
    ((some "sf", 1) ∈ header_based_routing_expected) ∧
    (0 : Nat) ≠ 1 :=
  ⟨by decide, by decide, by decide, by decide⟩

/-- C1 (amended): the matcher selects, among the rules whose matches list
is empty or for which some match-set's full predicate conjunction holds,
one of maximal match rank — a rule matched via an actual match-set
outranks a rule matching only by an empty matches list — and the earliest
such rule in order; this reproduces all five backend selections asserted
by the header_based_routing integration test. -/
theorem rule_matcher_rank_precedence :
    (∀ (rules : List Rule) (req : Request) (i : Nat),
        bestMatch rules req = some i →
          i < rules.length ∧
          (rules.getD i default).matches_req req = true ∧
          (∀ j, j < i →
            (rules.getD j default).rank req < (rules.getD i default).rank req) ∧
          (∀ j, j < rules.length →
            (rules.getD j default).rank req ≤ (rules.getD i default).rank req)) ∧
    (header_based_routing_expected.all fun p =>
        (bestMatch helloRules (reqWith p.1)).map
            (fun i => (helloRules.getD i default).backend) == some p.2) = true := by
  constructor
  · intro rules req i h
    unfold bestMatch at h
    cases h2 : findRank 2 rules req with
    | some k =>
        simp only [h2] at h
        obtain rfl : k = i := Option.some.inj h
        obtain ⟨hlen, hget, hprev⟩ := findRank_some h2
        refine ⟨hlen, ?_, ?_, ?_⟩
        · rw [matches_req_iff_rank_pos, hget]
          omega
        · intro j hj
          have hne := hprev j hj
          have hle := rank_le_two (rules.getD j default) req
          rw [hget]
          omega
        · intro j _
          have hle := rank_le_two (rules.getD j default) req
          rw [hget]
          exact hle
    | none =>
        simp only [h2] at h
        obtain ⟨hlen, hget, hprev⟩ := findRank_some h
        have hno2 := findRank_none h2
        refine ⟨hlen, ?_, ?_, ?_⟩
        · rw [matches_req_iff_rank_pos, hget]
        · intro j hj
          have hne1 := hprev j hj
          have hne2 := hno2 j (Nat.lt_trans hj hlen)
          have hle := rank_le_two (rules.getD j default) req
          rw [hget]
          omega
        · intro j hj
          have hne2 := hno2 j hj
          have hle := rank_le_two (rules.getD j default) req
          rw [hget]
          omega
  · decide

/-- C1 witness: the amended matcher at a concrete input — the sf request
against the test's rule table selects rule 1, which indeed matches. -/
theorem rule_matcher_rank_precedence_witness :
    1 < helloRules.length ∧
    (helloRules.getD 1 default).matches_req (reqWith (some "sf")) = true := by
  have h := rule_matcher_rank_precedence.1 helloRules (reqWith (some "sf")) 1
    (by decide)
  exact ⟨h.1, h.2.1⟩

/-- C2: for a recorded request (observation list initially empty), over any
event trace at most one histogram observation is ever made, none is made
while the response state is still live, and if the wrapped response body is
dropped before end-of-stream (its state is still present), that drop makes
exactly one observation, labeled by feeding end_response the distinguished
request-cancelled error outcome. -/
theorem response_body_drop_observes_cancelled (lb : Labeler L O)
    (ex0 : Exchange L O) (es : List Event) (now : Instant)
    (h0 : ex0.obs = []) :
    (run lb ex0 es).obs.length ≤ 1 ∧
    ((run lb ex0 es).state.isSome = true → (run lb ex0 es).obs = []) ∧
    ∀ l, (run lb ex0 es).state = some l →
      step lb (run lb ex0 es) (.rspDrop now) =
        { run lb ex0 es with
          state := none
          obs := [⟨lb.end_response l (.error .requestCancelled),
                   elapsedSince (run lb ex0 es).slot now⟩] } := by
  have hinv := run_invariant lb ex0 es (fun _ => h0) (by rw [h0]; simp)
  refine ⟨hinv.2, hinv.1, ?_⟩
  intro l hl
  have hobs : (run lb ex0 es).obs = [] := hinv.1 (by rw [hl]; rfl)
  have hstep : step lb (run lb ex0 es) (.rspDrop now) =
      end_stream lb (run lb ex0 es) now (.error .requestCancelled) := by
    simp [step, ResponseBody.drop, hl]
  rw [hstep, end_stream_of_state_some lb _ now _ l hl, hobs]
  simp

/-- C2 witness: a concrete recorded exchange whose response body is dropped
after the response headers arrive but before end-of-stream records exactly
the cancelled observation. -/
theorem response_body_drop_observes_cancelled_witness :
    step cLabeler
        (run cLabeler ⟨true, none, some (), []⟩ [.rspFuture (.ok 200 false) 1])
        (.rspDrop 3) =
      ⟨true, none, none, [⟨Except.error Err.requestCancelled, 0⟩]⟩ := by
  have h := response_body_drop_observes_cancelled cLabeler
      ⟨true, none, some (), []⟩ [.rspFuture (.ok 200 false) 1] 3 rfl
  have h3 := h.2.2 () rfl
  exact h3.trans (by decide)

/-- C3 (counterexample): in request-duration mode, for a request the
labeler records, the recorder does not wrap the request body at all — the
call instead fulfils the start signal immediately with the request-arrival
instant — refuting the claim that request-duration mode wraps the request
body so the signal fires at request-body end-of-stream. -/
theorem request_duration_mode_does_not_wrap_request_body :
    (RecordRequestDuration.call (fun _ => some ()) () 5
        : CallOut Unit Unit EndRes).wrapped = false ∧
    (RecordRequestDuration.call (fun _ => some ()) () 5
        : CallOut Unit Unit EndRes).ex.slot = some 5 ∧
    (RecordRequestDuration.call (fun _ => some ()) () 5
        : CallOut Unit Unit EndRes).ex.flushed = false :=
  ⟨rfl, rfl, rfl⟩

/-- C3 (amended): it is response-duration mode that wraps the request body
so the completion signal fires the instant the request body reaches
end-of-stream or is dropped early, with the fired timestamp the flushed
instant regardless of success; request-duration mode leaves the request
body unwrapped and fulfils the signal immediately with the
request-arrival instant. -/
theorem completion_signal_by_mode (lb : Labeler L O) (l : L) (req : R)
    (t u : Instant) :
    (RecordRequestDuration.call (fun _ => some l) req t
        : CallOut R L O).wrapped = false ∧
    (RecordRequestDuration.call (fun _ => some l) req t
        : CallOut R L O).ex.slot = some t ∧
    (RecordResponseDuration.call (fun _ => some l) req
        : CallOut R L O).wrapped = true ∧
    (RecordResponseDuration.call (fun _ => some l) req
        : CallOut R L O).ex.slot = none ∧
    (run lb (RecordResponseDuration.call (fun _ => some l) req
        : CallOut R L O).ex [.reqPollData true u]).slot = some u ∧
    (run lb (RecordResponseDuration.call (fun _ => some l) req
        : CallOut R L O).ex [.reqPollTrailers u]).slot = some u ∧
    (run lb (RecordResponseDuration.call (fun _ => some l) req
        : CallOut R L O).ex [.reqDrop u]).slot = some u :=
  ⟨rfl, rfl, rfl, rfl, rfl, rfl, rfl⟩

/-- C4 (counterexample): with the request body flushed at time 4, response
headers received at time 7, and the response body completing at time 9,
the response-duration histogram observes 5 = 9 - 4 — time from
request-body completion — not 9 - 7 as the claim's
response-headers-received start would require. -/
theorem response_duration_start_is_not_headers_instant :
    (run cLabeler
        (RecordResponseDuration.call (fun _ => some ()) ()
          : CallOut Unit Unit EndRes).ex
        [.reqPollData true 4, .rspFuture (.ok 200 false) 7,
          .rspPollData none true 9]).obs
      = [⟨Except.ok none, 5⟩] ∧
    (5 : Nat) ≠ 9 - 7 :=
  ⟨by decide, by decide⟩

/-- C4 (amended): the request-duration histogram observes the time from
request arrival (the call instant, sent on the start signal) to full
response-body completion, and the response-duration histogram observes the
time from request-body completion (the flushed instant) to full
response-body completion. -/
theorem durations_measured_from_start_signal (lb : Labeler L O) (l : L)
    (req : R) (t0 th t1 t2 : Instant) (s : Nat) :
    (run lb (RecordRequestDuration.call (fun _ => some l) req t0
        : CallOut R L O).ex
        [.rspFuture (.ok s false) th, .rspPollData none true t2]).obs
      = [⟨lb.end_response (lb.init_response l s) (.ok none), t2 - t0⟩] ∧
    (run lb (RecordResponseDuration.call (fun _ => some l) req
        : CallOut R L O).ex
        [.reqPollData true t1, .rspFuture (.ok s false) th,
          .rspPollData none true t2]).obs
      = [⟨lb.end_response (lb.init_response l s) (.ok none), t2 - t1⟩] :=
  ⟨rfl, rfl⟩

/-- C5: metrics recording never alters the exchange's outcome — an inner
error is returned unchanged by the response future after being observed,
body poll results pass through unchanged, an already-consumed state makes
finalization a no-op (omitted observation, no error), and a missing start
signal degrades to a zero-elapsed observation rather than an error. -/
theorem metrics_never_alter_outcome (lb : Labeler L O) (ex : Exchange L O)
    (e : Err) (res : EndRes) (innerEos : Bool) (now : Instant) (f : Bool)
    (slot : Option Instant) (l : L) (obs : List (Obs O)) :
    (ResponseFuture.poll lb ex (.err e) now).2 = .error e ∧
    (ResponseFuture.poll lb ⟨f, slot, some l, obs⟩ (.err e) now).1 =
      ⟨f, slot, none,
        obs ++ [⟨lb.end_response l (.error e), elapsedSince slot now⟩]⟩ ∧
    (ResponseBody.poll_data lb ex (some (.error e)) innerEos now).2 =
      some (.error e) ∧
    (ResponseBody.poll_trailers lb ex res now).2 = res ∧
    (ResponseBody.poll_trailers lb ⟨f, slot, none, obs⟩ res now).1 =
      ⟨f, slot, none, obs⟩ ∧
    end_stream lb ⟨f, none, some l, obs⟩ now res =
      ⟨f, none, none, obs ++ [⟨lb.end_response l res, 0⟩]⟩ :=
  ⟨rfl, rfl, rfl, rfl, rfl, rfl⟩

/-- C6: when the labeler declines a request, both recorder modes forward
the request unmodified with no body wrapping and no recorder state, and no
histogram observation is ever made on any completion or drop path. -/
theorem declined_request_passes_through_unrecorded (lb : Labeler L O)
    (mk : R → Option L) (req : R) (now : Instant) (es : List Event)
    (h : mk req = none) :
    (RecordResponseDuration.call mk req : CallOut R L O).wrapped = false ∧
    (RecordResponseDuration.call mk req : CallOut R L O).req = req ∧
    (run lb (RecordResponseDuration.call mk req : CallOut R L O).ex es).obs
      = [] ∧
    (run lb (RecordResponseDuration.call mk req : CallOut R L O).ex es).state
      = none ∧
    (RecordRequestDuration.call mk req now : CallOut R L O).wrapped = false ∧
    (RecordRequestDuration.call mk req now : CallOut R L O).req = req ∧
    (run lb (RecordRequestDuration.call mk req now
        : CallOut R L O).ex es).obs = [] := by
  have hc1 : (RecordResponseDuration.call mk req : CallOut R L O) =
      ⟨⟨false, none, none, []⟩, req, false⟩ := by
    unfold RecordResponseDuration.call
    rw [h]
  have hc2 : (RecordRequestDuration.call mk req now : CallOut R L O) =
      ⟨⟨false, none, none, []⟩, req, false⟩ := by
    unfold RecordRequestDuration.call
    rw [h]
  rw [hc1, hc2]
  obtain ⟨h1, h2⟩ := run_state_none lb ⟨false, none, none, []⟩ es rfl
  exact ⟨rfl, rfl, h2, h1, rfl, rfl, h2⟩

/-- C6 witness: a declined request whose (unwrapped) response body is then
dropped produces no observation. -/
theorem declined_request_passes_through_unrecorded_witness :
    (run cLabeler
        (RecordResponseDuration.call (fun _ => none) ()
          : CallOut Unit Unit EndRes).ex
        [.rspDrop 5]).obs = [] :=
  (declined_request_passes_through_unrecorded cLabeler
      (fun _ => none) () 2 [.rspDrop 5] rfl).2.2.1

/-- C7: when the response body is already at end-of-stream as the response
headers are received, the metric is finalized immediately with the
empty-trailers success outcome Ok(None), fed to end_response only after
init_response has observed the response headers. -/
theorem empty_body_finalized_at_response (lb : Labeler L O) (l : L)
    (f : Bool) (slot : Option Instant) (obs : List (Obs O)) (s : Nat)
    (now : Instant) :
    ResponseFuture.poll lb ⟨f, slot, some l, obs⟩ (.ok s true) now =
      (⟨f, slot, none,
          obs ++ [⟨lb.end_response (lb.init_response l s) (.ok none),
                   elapsedSince slot now⟩]⟩,
        .ok s) :=
  rfl

/-- C8: when the start signal holds no value at finalization time, the
recorder records a zero elapsed time into the histogram — the observation
is neither skipped nor turned into a failure. -/
theorem missing_start_signal_records_zero (lb : Labeler L O) (l : L)
    (f : Bool) (obs : List (Obs O)) (now : Instant) (res : EndRes) :
    end_stream lb ⟨f, none, some l, obs⟩ now res =
      ⟨f, none, none, obs ++ [⟨lb.end_response l res, 0⟩]⟩ :=
  rfl

/-- C9: the histogram bucket bounds are exactly 0.025, 0.1, 0.25, 1.0,
2.5, 10.0 and 25.0 seconds, both duration metric families draw them from
the one shared BUCKETS constant, and every histogram any constructor
instance builds uses those same bounds — there is no per-instance
configuration. -/
theorem duration_buckets_fixed_and_shared :
    MkDurationHistogram.BUCKETS =
      [(0.025 : ℚ), 0.1, 0.25, 1.0, 2.5, 10.0, 25.0] ∧
    RequestDuration.register.family.get_or_create.buckets =
      MkDurationHistogram.BUCKETS ∧
    ResponseDuration.register.family.get_or_create.buckets =
      MkDurationHistogram.BUCKETS ∧
    ∀ c : MkDurationHistogram,
      c.new_metric.buckets = MkDurationHistogram.BUCKETS :=
  ⟨rfl, rfl, rfl, fun _ => rfl⟩

/-- C10: the request-body flushed sender fires at most once — whichever of
end-of-stream in poll_data, trailers completion, or drop happens first
consumes the sender and records its instant, and once the sender is
consumed every later event leaves the channel slot unchanged (a send with
no receiver is modelled as total: its result is discarded, never a
panic). -/
theorem request_body_sender_fires_at_most_once (lb : Labeler L O)
    (ex : Exchange L O) (now : Instant) (es : List Event) :
    (ex.flushed = true →
        (step lb ex (.reqPollData true now)).slot = some now ∧
        (step lb ex (.reqPollData true now)).flushed = false ∧
        (step lb ex (.reqPollTrailers now)).slot = some now ∧
        (step lb ex (.reqPollTrailers now)).flushed = false ∧
        (step lb ex (.reqDrop now)).slot = some now ∧
        (step lb ex (.reqDrop now)).flushed = false) ∧
    (ex.flushed = false →
      (run lb ex es).flushed = false ∧ (run lb ex es).slot = ex.slot) := by
  constructor
  · intro h
    refine ⟨?_, ?_, ?_, ?_, ?_, ?_⟩ <;>
      simp [step, RequestBody.poll_data, RequestBody.poll_trailers,
        RequestBody.drop, RequestBody.touchFlushed, h]
  · intro h
    exact run_flushed_false lb ex es h

/-- C10 witness: dropping a live request body at time 7 fires the sender
with 7, and after the sender is consumed further drops and trailer polls
leave the slot unchanged. -/
theorem request_body_sender_fires_at_most_once_witness :
    (step cLabeler ⟨true, none, some (), []⟩ (.reqDrop 7)).slot = some 7 ∧
    (run cLabeler ⟨false, some 7, some (), []⟩
        [.reqDrop 9, .reqPollTrailers 11]).slot = some 7 := by
  constructor
  · exact ((request_body_sender_fires_at_most_once cLabeler
      ⟨true, none, some (), []⟩ 7 []).1 rfl).2.2.2.2.1
  · exact ((request_body_sender_fires_at_most_once cLabeler
      ⟨false, some 7, some (), []⟩ 9 [.reqDrop 9, .reqPollTrailers 11]).2
        rfl).2

end LinkerdProxy
